import Mathlib

/-!
Verification of the hybrid recommendation engine of the GraphQL
recommendation service (`app/recommendation/` and `app/cache/`).

The Python classes are shallowly embedded as Lean structures holding the
trained state of each engine, together with executable functions mirroring
the recommendation logic.  Conventions used throughout:

* `uuid.UUID` identifiers are modelled as natural numbers (`UserId`,
  `ItemId`); the embedding never relies on any property of the ids beyond
  decidable equality.
* Python floats are modelled as exact rationals (`ℚ`).  Cosine similarity
  involves square roots, whose exact value is generally irrational, so the
  similarity matrices computed by `sklearn`'s `cosine_similarity` at
  training time are kept as part of the trained state and are related to
  the stored interaction matrix by the relational specification
  `IsCosSim` (which pins the value down uniquely).
* A raised Python exception is modelled with `Except String`; a function
  embedded with a plain (non-`Except`) result type cannot fail, mirroring
  Python code that contains no raising operations outside `try` blocks.
* Python `dict`s preserve insertion order, so dictionaries built up during
  a single request are modelled as association lists in insertion order.
* `list.sort(key=..., reverse=True)` and `np.argsort` (which uses an
  insertion sort on the short arrays appearing here, hence is stable) are
  modelled with stable insertion sorts.
-/

deriving instance DecidableEq for Except

namespace RecSys

abbrev UserId := Nat

abbrev ItemId := Nat

/-- `RecommendationItem` from `app/recommendation/base.py`: an output item
with a score and a human readable reason. -/
structure RecommendationItem where
  item_id : ItemId
  score : ℚ
  reason : String
  deriving Repr, DecidableEq

/-- `RecommendationContext` from `app/recommendation/base.py`.  The Python
`Optional` list fields default to `None`; since the code only ever tests
them for truthiness (`if context.exclude_items and ...`), `None` and the
empty list are indistinguishable and both are modelled by `[]`. -/
structure RecommendationContext where
  user_id : UserId
  tenant_id : Nat
  num_recommendations : Nat
  exclude_items : List ItemId
  include_categories : List String
  exclude_categories : List String
  min_score : ℚ
  diversify : Bool
  explain : Bool
  deriving Repr, DecidableEq

/-- Stable descending insertion by a rational key: `x` is placed before the
first element whose key is strictly smaller, hence after all earlier
elements with an equal key (the stability guarantee of CPython's sort). -/
def insertKeyDesc {α : Type} (key : α → ℚ) (x : α) : List α → List α
  | [] => [x]
  | y :: ys => if key y < key x then x :: y :: ys else y :: insertKeyDesc key x ys

/-- Stable descending sort by a rational key, modelling
`list.sort(key=..., reverse=True)`. -/
def sortKeyDesc {α : Type} (key : α → ℚ) (l : List α) : List α :=
  l.foldl (fun acc x => insertKeyDesc key x acc) []

/-- Stable ascending insertion by a rational key. -/
def insertKeyAsc {α : Type} (key : α → ℚ) (x : α) : List α → List α
  | [] => [x]
  | y :: ys => if key x < key y then x :: y :: ys else y :: insertKeyAsc key x ys

/-- Stable ascending sort by a rational key, modelling `np.argsort` on the
short arrays used by the engines (numpy falls back to a stable insertion
sort below 16 elements). -/
def sortKeyAsc {α : Type} (key : α → ℚ) (l : List α) : List α :=
  l.foldl (fun acc x => insertKeyAsc key x acc) []

/-- `np.argsort(vals)[::-1]`: indices of `vals` paired with their values,
in descending value order (stable ascending sort, then reversed, exactly as
the slice `[::-1]` does). -/
def argDesc (vals : List ℚ) : List (Nat × ℚ) :=
  (sortKeyAsc Prod.snd vals.enum).reverse

/-- Position of `x` in a list, modelling the id→index dictionaries
(`user_mapping` / `item_mapping`): the index of an id is its position in
the list of unique ids, so the list itself doubles as the reverse
mapping. -/
def posOf? : List Nat → Nat → Option Nat
  | [], _ => none
  | y :: ys, x => if y = x then some 0 else (posOf? ys x).map (fun n => n + 1)

/-- Add `v` to the accumulated score of `i` in an insertion-ordered
association list, inserting at the back when absent — the semantics of a
Python dict used as `recommendations[item_id] += score`. -/
def addScore : List (ItemId × ℚ) → ItemId → ℚ → List (ItemId × ℚ)
  | [], i, v => [(i, v)]
  | (j, w) :: rest, i, v =>
    if j = i then (j, w + v) :: rest else (j, w) :: addScore rest i v

/-- One raw interaction record, as consumed by the trainers.
`interaction_value = none` models an interaction dict without the
`interaction_value` key (the source then uses the default weight `1.0`);
`rating = none` models records without a rating.  As in the source, rows
are processed in input order. -/
structure Interaction where
  user_id : UserId
  item_id : ItemId
  interaction_value : Option ℚ
  rating : Option ℚ
  deriving Repr, DecidableEq

/-- The cell value written for one interaction row
(`collaborative_filtering.py`, `train`):
`value = row.get('interaction_value', 1.0); if row.get('rating'): value =
row['rating']`.  Note the Python truthiness test: a *zero* rating is
falsy, so it does not overwrite the interaction value. -/
def cellValue (r : Interaction) : ℚ :=
  match r.rating with
  | some v => if v = 0 then r.interaction_value.getD 1 else v
  | none => r.interaction_value.getD 1

/-- Number of rows of `l` whose key `f` equals `x` (pandas
`value_counts`). -/
def countBy (l : List Interaction) (f : Interaction → Nat) (x : Nat) : Nat :=
  (l.filter (fun r => f r = x)).length

/-- The filtering step of `train`: keep rows whose user and item both have
at least `min_interactions` rows in the *original* input (the counts are
computed before filtering, as in the source). -/
def validRows (min_interactions : Nat) (rows : List Interaction) : List Interaction :=
  rows.filter (fun r =>
    min_interactions ≤ countBy rows (fun s => s.user_id) r.user_id ∧
    min_interactions ≤ countBy rows (fun s => s.item_id) r.item_id)

/-- First–occurrence deduplication, the order produced by pandas
`Series.unique`. -/
def uniquesInOrder (l : List Nat) : List Nat :=
  l.foldl (fun acc x => if x ∈ acc then acc else acc ++ [x]) []

/-- Point update of a dense matrix represented as a function. -/
def updateCell (M : Nat → Nat → ℚ) (i j : Nat) (v : ℚ) : Nat → Nat → ℚ :=
  fun a b => if a = i ∧ b = j then v else M a b

/-- The matrix-filling loop of `train`: rows are written in input order
into a zero-initialised matrix, so a later row targeting the same cell
overwrites an earlier one. -/
def buildMatrix (userMap itemMap : List Nat) (rows : List Interaction) :
    Nat → Nat → ℚ :=
  rows.foldl (fun M r =>
    match posOf? userMap r.user_id, posOf? itemMap r.item_id with
    | some ui, some ii => updateCell M ui ii (cellValue r)
    | _, _ => M) (fun _ _ => 0)

/-- The shared head of `UserBasedCollaborativeFiltering.train` and
`ItemBasedCollaborativeFiltering.train` (the two methods are verbatim
identical up to the final similarity computation): filter thin
users/items, raise `ValueError` when nothing is left, build the id→index
mappings in first-occurrence order and fill the user×item matrix. -/
def trainCore (min_interactions : Nat) (rows : List Interaction) :
    Except String (List UserId × List ItemId × (Nat → Nat → ℚ)) :=
  let df := validRows min_interactions rows
  if df = [] then Except.error "Not enough interaction data for training"
  else
    let users := uniquesInOrder (df.map (fun r => r.user_id))
    let items := uniquesInOrder (df.map (fun r => r.item_id))
    Except.ok (users, items, buildMatrix users items df)

/-- Relational specification of cosine similarity, the one training step
whose exact value is irrational in general.  `IsCosSim x y c` holds iff
`c = (x·y) / (‖x‖‖y‖)` — with the convention of sklearn's
`cosine_similarity` that a zero vector has similarity `0` to everything —
stated without square roots: the squares agree, the signs agree, and zero
vectors force `0`.  For nonzero vectors these conditions determine `c`
uniquely. -/
def dotQ (x y : List ℚ) : ℚ :=
  ((x.zip y).map (fun p => p.1 * p.2)).sum

def IsCosSim (x y : List ℚ) (c : ℚ) : Prop :=
  c * c * dotQ x x * dotQ y y = dotQ x y * dotQ x y ∧
  (0 ≤ c ↔ 0 ≤ dotQ x y) ∧
  ((dotQ x x = 0 ∨ dotQ y y = 0) → c = 0)

instance (x y : List ℚ) (c : ℚ) : Decidable (IsCosSim x y c) := by
  unfold IsCosSim; infer_instance

/-- Trained state of `UserBasedCollaborativeFiltering`.  `user_mapping`
and `item_mapping` list the unique ids in index order (position = dense
index, so the list is simultaneously the forward and the reverse
mapping).  The matrices are total functions on indices; the similarity
matrix is the one computed by `cosine_similarity` at training time and is
related to `user_item_matrix` through `IsCosSim`. -/
structure UserCFState where
  user_mapping : List UserId
  item_mapping : List ItemId
  user_item_matrix : Nat → Nat → ℚ
  user_similarity_matrix : Nat → Nat → ℚ
  k_neighbors : Nat
  is_trained : Bool

/-- Column sums of the user×item matrix
(`np.sum(self.user_item_matrix, axis=0)`), the popularity signal of the
cold-start path. -/
def itemPopularity (st : UserCFState) : List ℚ :=
  (List.range st.item_mapping.length).map (fun j =>
    ((List.range st.user_mapping.length).map
      (fun i => st.user_item_matrix i j)).sum)

/-- `UserBasedCollaborativeFiltering._cold_start_recommend`: rank all
items by popularity (descending), truncate, and score each as
`popularity / number_of_users`. -/
def userCFColdStart (st : UserCFState) (ctx : RecommendationContext) :
    List RecommendationItem :=
  let pop := itemPopularity st
  ((argDesc pop).take ctx.num_recommendations).map (fun p =>
    RecommendationItem.mk (st.item_mapping.getD p.1 0)
      (p.2 / (st.user_mapping.length : ℚ))
      "Popular item (cold start)")

/-- `UserBasedCollaborativeFiltering.recommend`: empty when untrained,
cold start for unknown users, otherwise accumulate
`similarity * neighbor_rating` over the `k_neighbors` most similar other
users (`np.argsort(...)[::-1][1:k+1]`) for items the target user has not
interacted with, then stable-sort descending and truncate. -/
def userCFRecommend (st : UserCFState) (ctx : RecommendationContext) :
    List RecommendationItem :=
  if st.is_trained = false then []
  else
    match posOf? st.user_mapping ctx.user_id with
    | none => userCFColdStart st ctx
    | some uidx =>
      let nItems := st.item_mapping.length
      let sims := (List.range st.user_mapping.length).map
        (fun i => st.user_similarity_matrix uidx i)
      let neighbors := ((argDesc sims).drop 1).take st.k_neighbors
      let recs := neighbors.foldl (fun acc nb =>
        (List.range nItems).foldl (fun acc2 j =>
          let r := st.user_item_matrix nb.1 j
          if 0 < r ∧ st.user_item_matrix uidx j = 0 then
            addScore acc2 (st.item_mapping.getD j 0) (nb.2 * r)
          else acc2) acc) []
      let items := recs.map (fun p =>
        RecommendationItem.mk p.1 p.2
          "Users with similar preferences also liked this item")
      (sortKeyDesc (fun x => x.score) items).take ctx.num_recommendations

/-- Trained state of `ItemBasedCollaborativeFiltering` (only the parts
used by `get_item_similarity`). -/
structure ItemCFState where
  item_mapping : List ItemId
  item_similarity_matrix : Nat → Nat → ℚ
  is_trained : Bool

/-- `ItemBasedCollaborativeFiltering.get_item_similarity`: read the row of
the queried item from the trained similarity matrix and return
`np.argsort(similarities)[::-1][1:top_k + 1]` — the code drops the single
top entry of the descending order, assuming that entry is the queried item
itself. -/
def itemCFGetItemSimilarity (st : ItemCFState) (item_id : ItemId)
    (top_k : Nat) : List (ItemId × ℚ) :=
  if st.is_trained = false then []
  else
    match posOf? st.item_mapping item_id with
    | none => []
    | some idx =>
      let sims := (List.range st.item_mapping.length).map
        (fun j => st.item_similarity_matrix idx j)
      (((argDesc sims).drop 1).take top_k).map (fun p =>
        (st.item_mapping.getD p.1 0, p.2))

/-- Trained state of `ContentBasedRecommendationEngine`.  `categoryOf`
and `popularityOf` read the stored `item_features` dict (category string,
and `content_features['popularity_score']` with default `0.0`);
`user_profiles` lists the users that obtained a profile vector during
training.  The cosine similarities of a profile against the feature matrix
are supplied by an oracle argument to `contentRecommend`, since their
exact values are irrational in general. -/
structure ContentState where
  item_mapping : List ItemId
  categoryOf : ItemId → String
  popularityOf : ItemId → ℚ
  user_profiles : List UserId
  is_trained : Bool

/-- The warm path of `ContentBasedRecommendationEngine.recommend` after
the similarity row has been computed: walk `enumerate(similarities)`,
skip items in `exclude_items` (only when that list is truthy, i.e.
non-empty), apply the category include/exclude filters, then stable-sort
descending by similarity and truncate. -/
def contentRecommendCore (st : ContentState) (sims : List ℚ)
    (ctx : RecommendationContext) : List RecommendationItem :=
  let recs := sims.enum.filterMap (fun p =>
    let item := st.item_mapping.getD p.1 0
    if ctx.exclude_items ≠ [] ∧ item ∈ ctx.exclude_items then none
    else if ctx.include_categories ≠ [] ∧
        st.categoryOf item ∉ ctx.include_categories then none
    else if ctx.exclude_categories ≠ [] ∧
        st.categoryOf item ∈ ctx.exclude_categories then none
    else some (RecommendationItem.mk item p.2
      "Similar to items you have interacted with (content similarity)"))
  (sortKeyDesc (fun x => x.score) recs).take ctx.num_recommendations

/-- `ContentBasedRecommendationEngine._cold_start_recommend`: every
stored item ranked descending by its `popularity_score` (default `0.0`),
truncated.  Note that no context filter is applied on this path. -/
def contentColdStart (st : ContentState) (ctx : RecommendationContext) :
    List RecommendationItem :=
  let popular := st.item_mapping.map (fun i => (i, st.popularityOf i))
  ((sortKeyDesc Prod.snd popular).take ctx.num_recommendations).map (fun p =>
    RecommendationItem.mk p.1 p.2 "Popular item (cold start)")

/-- `ContentBasedRecommendationEngine.recommend`: empty when untrained,
cold start when the user has no profile, otherwise the warm path on the
cosine similarities of the user profile (supplied by the oracle
`simsFor`). -/
def contentRecommend (simsFor : UserId → List ℚ) (st : ContentState)
    (ctx : RecommendationContext) : List RecommendationItem :=
  if st.is_trained = false then []
  else if ctx.user_id ∈ st.user_profiles then
    contentRecommendCore st (simsFor ctx.user_id) ctx
  else contentColdStart st ctx

/-- Trained state of `SVDRecommendationEngine`.  The fitted surprise
model is abstracted by oracles: `predictEst u i` is
`model.predict(u, i).est`, `ratedItems u` the item indices occurring in
`trainset.ur[u]`, and `popScore i` the cold-start popularity
`avg_rating * log(1 + num_ratings)` of item index `i` (irrational in
general, hence kept abstract). -/
structure SVDState where
  user_mapping : List UserId
  item_mapping : List ItemId
  predictEst : Nat → Nat → ℚ
  ratedItems : Nat → List Nat
  popScore : Nat → ℚ
  is_trained : Bool

/-- `SVDRecommendationEngine._cold_start_recommend`: items ranked
descending by the popularity score. -/
def svdColdStart (st : SVDState) (ctx : RecommendationContext) :
    List RecommendationItem :=
  let scored := (List.range st.item_mapping.length).map
    (fun i => (st.item_mapping.getD i 0, st.popScore i))
  ((sortKeyDesc Prod.snd scored).take ctx.num_recommendations).map (fun p =>
    RecommendationItem.mk p.1 p.2 "Popular item (cold start)")

/-- `SVDRecommendationEngine.recommend`: empty when untrained, cold start
for unknown users, otherwise predict a rating for every item the user has
not rated, stable-sort descending and truncate. -/
def svdRecommend (st : SVDState) (ctx : RecommendationContext) :
    List RecommendationItem :=
  if st.is_trained = false then []
  else
    match posOf? st.user_mapping ctx.user_id with
    | none => svdColdStart st ctx
    | some uidx =>
      let recs := (st.item_mapping.enum).filterMap (fun p =>
        if p.1 ∈ st.ratedItems uidx then none
        else some (RecommendationItem.mk p.2
          (st.predictEst uidx p.1) "Matrix factorization prediction"))
      (sortKeyDesc (fun x => x.score) recs).take ctx.num_recommendations

/-- Trained state of `ImplicitMFRecommendationEngine`.  The fitted ALS
model is abstracted by the oracle `modelTopN u n`, the
`(item_index, score)` pairs returned by `model.recommend(u, ..., N=n)`;
`confMatrix` is the stored sparse confidence matrix as a dense
function. -/
structure ImplicitMFState where
  user_mapping : List UserId
  item_mapping : List ItemId
  confMatrix : Nat → Nat → ℚ
  modelTopN : Nat → Nat → List (Nat × ℚ)
  is_trained : Bool

/-- `ImplicitMFRecommendationEngine._cold_start_recommend`: column sums of
the confidence matrix ranked descending, scored as
`popularity / n_users`. -/
def implicitColdStart (st : ImplicitMFState) (ctx : RecommendationContext) :
    List RecommendationItem :=
  let pop := (List.range st.item_mapping.length).map (fun j =>
    ((List.range st.user_mapping.length).map
      (fun i => st.confMatrix i j)).sum)
  ((argDesc pop).take ctx.num_recommendations).filterMap (fun p =>
    (st.item_mapping.get? p.1).map (fun item =>
      RecommendationItem.mk item (p.2 / (st.user_mapping.length : ℚ))
        "Popular item (cold start)"))

/-- `ImplicitMFRecommendationEngine.recommend`: ask the model for
`2 * num_recommendations` candidates, translate item indices through the
reverse mapping (dropping unknown indices, as `dict.get` + truthiness test
does), and truncate to `num_recommendations`. -/
def implicitRecommend (st : ImplicitMFState) (ctx : RecommendationContext) :
    List RecommendationItem :=
  if st.is_trained = false then []
  else
    match posOf? st.user_mapping ctx.user_id with
    | none => implicitColdStart st ctx
    | some uidx =>
      let raw := st.modelTopN uidx (ctx.num_recommendations * 2)
      let recs := raw.filterMap (fun p =>
        (st.item_mapping.get? p.1).map (fun item =>
          RecommendationItem.mk item p.2 "Implicit matrix factorization"))
      recs.take ctx.num_recommendations

/-- The interface one component engine presents to the hybrid combiner:
whether a given user has a trained representation (membership in the
engine's `user_mapping` / `user_profiles`), and its `recommend`, which may
raise (`Except.error`). -/
structure SubScorer where
  hasUser : UserId → Bool
  recommendFn : RecommendationContext → Except String (List RecommendationItem)

/-- The three resolved weights of the weighted hybrid engine. -/
structure HybridWeights where
  collaborative : ℚ
  content : ℚ
  matrix_factorization : ℚ
  deriving Repr, DecidableEq

/-- `WeightedHybridRecommendationEngine`: configured base weights
(defaults 0.4 / 0.3 / 0.3), the adaptive-weight switch (always `True` in
the source constructor), the trained flag, and the four component
engines behind the `BaseRecommendationEngine` interface. -/
structure WeightedHybridEngine where
  collaborative_weight : ℚ
  content_weight : ℚ
  matrix_factorization_weight : ℚ
  adaptive_weights : Bool
  is_trained : Bool
  user_cf : SubScorer
  item_cf : SubScorer
  content_based : SubScorer
  matrix_factorization : SubScorer

/-- `WeightedHybridRecommendationEngine._calculate_adaptive_weights`:
base weights when non-adaptive; equal weights 0.33/0.33/0.34 when the
user is unknown to all three engines; otherwise zero the weights of
engines without user data and divide each remaining weight by their sum
(when that sum is positive). -/
def calculateAdaptiveWeights (e : WeightedHybridEngine) (user_id : UserId) :
    HybridWeights :=
  if e.adaptive_weights = false then
    HybridWeights.mk e.collaborative_weight e.content_weight
      e.matrix_factorization_weight
  else
    let hasCf := e.user_cf.hasUser user_id
    let hasContent := e.content_based.hasUser user_id
    let hasMf := e.matrix_factorization.hasUser user_id
    if hasCf = false ∧ hasContent = false ∧ hasMf = false then
      HybridWeights.mk (33 / 100) (33 / 100) (34 / 100)
    else
      let w := HybridWeights.mk
        (if hasCf then e.collaborative_weight else 0)
        (if hasContent then e.content_weight else 0)
        (if hasMf then e.matrix_factorization_weight else 0)
      let total := w.collaborative + w.content + w.matrix_factorization
      if 0 < total then
        HybridWeights.mk (w.collaborative / total) (w.content / total)
          (w.matrix_factorization / total)
      else w

/-- `WeightedHybridRecommendationEngine._merge_recommendations` for a
single item: `all_recommendations[item].score += rec.score * weight` and
the contributing method name is appended, with dict insertion order
preserved. -/
def mergeOne (acc : List (ItemId × ℚ × List String))
    (rec : RecommendationItem) (weight : ℚ) (method : String) :
    List (ItemId × ℚ × List String) :=
  match acc with
  | [] => [(rec.item_id, rec.score * weight, [method])]
  | (j, s, ms) :: rest =>
    if j = rec.item_id then (j, s + rec.score * weight, ms ++ [method]) :: rest
    else (j, s, ms) :: mergeOne rest rec weight method

/-- `_merge_recommendations` over a whole sub-scorer result list. -/
def mergeRecommendations (acc : List (ItemId × ℚ × List String))
    (recs : List RecommendationItem) (weight : ℚ) (method : String) :
    List (ItemId × ℚ × List String) :=
  recs.foldl (fun a r => mergeOne a r weight method) acc

/-- `WeightedHybridRecommendationEngine.recommend`.  Each fan-out call
sits in a `try/except` that swallows the exception (for the collaborative
slot, falling back to item-based CF first); the result type `Except` makes
visible that every branch of the combiner itself returns `ok`.  The merged
dict is turned into `RecommendationItem`s in insertion order, stable-sorted
descending by combined score and truncated.  No `exclude_items`, category,
`min_score` or diversification filter appears on this path. -/
def hybridRecommend (e : WeightedHybridEngine) (ctx : RecommendationContext) :
    Except String (List RecommendationItem) :=
  if e.is_trained = false then Except.ok []
  else
    let w := calculateAdaptiveWeights e ctx.user_id
    let acc1 :=
      if 0 < w.collaborative then
        match e.user_cf.recommendFn ctx with
        | Except.ok recs =>
          mergeRecommendations [] recs w.collaborative "collaborative_filtering"
        | Except.error _ =>
          match e.item_cf.recommendFn ctx with
          | Except.ok recs =>
            mergeRecommendations [] recs w.collaborative "collaborative_filtering"
          | Except.error _ => []
      else []
    let acc2 :=
      if 0 < w.content then
        match e.content_based.recommendFn ctx with
        | Except.ok recs => mergeRecommendations acc1 recs w.content "content_based"
        | Except.error _ => acc1
      else acc1
    let acc3 :=
      if 0 < w.matrix_factorization then
        match e.matrix_factorization.recommendFn ctx with
        | Except.ok recs =>
          mergeRecommendations acc2 recs w.matrix_factorization
            "matrix_factorization"
        | Except.error _ => acc2
      else acc2
    let items := acc3.map (fun p =>
      RecommendationItem.mk p.1 p.2.1
        ("Hybrid recommendation (methods: " ++
          String.intercalate ", " p.2.2 ++ ")"))
    Except.ok ((sortKeyDesc (fun x => x.score) items).take ctx.num_recommendations)

/-- Bump the stored per-category counter (a Python dict). -/
def bumpCount (counts : List (String × Nat)) (c : String) (n : Nat) :
    List (String × Nat) :=
  match counts with
  | [] => [(c, n)]
  | (d, m) :: rest =>
    if d = c then (d, n) :: rest else (d, m) :: bumpCount rest c n

/-- The loop body of
`BaseRecommendationEngine._diversify_recommendations`: keep an item only
while its category (defaulting to "unknown") has been kept fewer than
`max_per_category` times, appending in input order. -/
def diversifyGo (max_per_category : Nat) (categories : List (ItemId × String))
    (counts : List (String × Nat)) :
    List RecommendationItem → List RecommendationItem
  | [] => []
  | item :: rest =>
    let category := (categories.lookup item.item_id).getD "unknown"
    let current := (counts.lookup category).getD 0
    if current < max_per_category then
      item :: diversifyGo max_per_category categories
        (bumpCount counts category (current + 1)) rest
    else diversifyGo max_per_category categories counts rest

/-- `BaseRecommendationEngine._diversify_recommendations` (default
`max_per_category = 3`): the input is returned unchanged when the
category dict is falsy (empty). -/
def diversifyRecommendations (recommendations : List RecommendationItem)
    (categories : List (ItemId × String)) (max_per_category : Nat) :
    List RecommendationItem :=
  if categories = [] then recommendations
  else diversifyGo max_per_category categories [] recommendations

/-- Number of items of a list carrying a given category. -/
def countCategory (catOf : ItemId → String) (l : List RecommendationItem)
    (c : String) : Nat :=
  (l.filter (fun x => catOf x.item_id = c)).length

/-- A recommendation list sorted descending by score. -/
def ScoreSortedDesc (l : List RecommendationItem) : Prop :=
  l.Pairwise (fun a b => b.score ≤ a.score)

instance (l : List RecommendationItem) : Decidable (ScoreSortedDesc l) := by
  unfold ScoreSortedDesc; infer_instance

/-- The external effects reachable from `RedisClusterClient.get`/`set`:
the raw cluster operations (which may raise any exception — connection
errors included), `json.loads` (which may raise on malformed payloads)
and `json.dumps(..., default=str)` (total). -/
structure RedisBackend where
  rawGet : String → Except String (Option String)
  rawSet : String → String → Option Nat → Except String Bool
  jsonLoads : String → Except String String
  jsonDumps : String → String

/-- `RedisClusterClient.get`: `None` when not connected; the raw value is
fetched inside a `try` whose `except` logs and returns `None`; a falsy
raw value (absent key or empty string) also yields `None`. -/
def redisGet (connected : Bool) (b : RedisBackend) (key : String) :
    Option String :=
  if connected = false then none
  else
    match b.rawGet key with
    | Except.error _ => none
    | Except.ok none => none
    | Except.ok (some raw) =>
      if raw = "" then none
      else
        match b.jsonLoads raw with
        | Except.error _ => none
        | Except.ok v => some v

/-- `RedisClusterClient.set`: `False` when not connected; the serialised
write happens inside a `try` whose `except` logs and returns `False`;
otherwise the truthiness of the backend reply is returned. -/
def redisSet (connected : Bool) (b : RedisBackend) (key value : String)
    (expire : Option Nat) : Bool :=
  if connected = false then false
  else
    match b.rawSet key (b.jsonDumps value) expire with
    | Except.error _ => false
    | Except.ok r => r

/-- Whether an embedded call raised (for stating failure hypotheses). -/
def raised {α : Type} (r : Except String α) : Bool :=
  match r with
  | Except.error _ => true
  | Except.ok _ => false

/-- Dense matrix literal: row-major list of lists, `0` outside. -/
def matFromList (m : List (List ℚ)) : Nat → Nat → ℚ :=
  fun i j => ((m.getD i []).getD j 0)

/-- Read a functional matrix back as its list of columns. -/
def colsOf (M : Nat → Nat → ℚ) (nUsers nItems : Nat) : List (List ℚ) :=
  (List.range nItems).map (fun j => (List.range nUsers).map (fun i => M i j))

/-- A component engine that knows no user and always raises. -/
def failScorer : SubScorer :=
  SubScorer.mk (fun _ => false) (fun _ => Except.error "engine failure")

/-- Concrete trained `UserBasedCollaborativeFiltering` state over users
`100, 200` and items `1, 2, 3`: interaction matrix rows `(3,4,0)` and
`(0,3,4)` (norms `5` and `5`, dot product `12`), whose exact cosine
similarity matrix is `[[1, 12/25], [12/25, 1]]`. -/
def c1UserCFState : UserCFState :=
  UserCFState.mk [100, 200] [1, 2, 3]
    (matFromList [[3, 4, 0], [0, 3, 4]])
    (matFromList [[1, 12 / 25], [12 / 25, 1]])
    50 true

/-- Weighted hybrid engine whose collaborative slot is the trained
`c1UserCFState` (content and matrix-factorization know no user), with the
constructor defaults of `WeightedHybridRecommendationEngine`. -/
def c1Engine : WeightedHybridEngine :=
  WeightedHybridEngine.mk (4 / 10) (3 / 10) (3 / 10) true true
    (SubScorer.mk (fun u => decide (u ∈ c1UserCFState.user_mapping))
      (fun ctx => Except.ok (userCFRecommend c1UserCFState ctx)))
    failScorer failScorer failScorer

/-- Request for user `100` that excludes item `3`. -/
def c1Ctx : RecommendationContext :=
  RecommendationContext.mk 100 0 10 [3] [] [] 0 true false

/-- A trained content state with one item and a profile for user `1`,
used to witness the amended exclusion property. -/
def c1wContentState : ContentState :=
  ContentState.mk [7] (fun _ => "drama") (fun _ => 0) [1] true

/-- Request of the exclusion witness: excludes item `9`, not item `7`. -/
def c1wCtx : RecommendationContext :=
  RecommendationContext.mk 1 0 5 [9] [] [] 0 true false

/-- A hybrid engine whose four component engines all raise. -/
def c2wEngine : WeightedHybridEngine :=
  WeightedHybridEngine.mk (4 / 10) (3 / 10) (3 / 10) true true
    (SubScorer.mk (fun _ => true) (fun _ => Except.error "cf down"))
    (SubScorer.mk (fun _ => false) (fun _ => Except.error "item cf down"))
    (SubScorer.mk (fun _ => true) (fun _ => Except.error "content down"))
    (SubScorer.mk (fun _ => false) (fun _ => Except.error "mf down"))

/-- Generic request used by several witnesses. -/
def plainCtx : RecommendationContext :=
  RecommendationContext.mk 42 0 10 [] [] [] 0 true false

/-- Engine for the weight-normalization witness: the user is known to the
collaborative engine only. -/
def c3wEngine : WeightedHybridEngine :=
  WeightedHybridEngine.mk (4 / 10) (3 / 10) (3 / 10) true true
    (SubScorer.mk (fun u => decide (u = 42)) (fun _ => Except.ok []))
    failScorer failScorer failScorer

/-- Thirty interaction rows: each of the five users `10..14` has three
duplicate rows on item `1` and three on item `2` (so every user count is
`6 ≥ 5` and every item count is `15 ≥ 5`, and all rows survive the
training filter).  All cells default to weight `1.0`, making the two item
columns identical — their exact cosine similarity is `1`. -/
def c4Rows : List Interaction :=
  ([10, 11, 12, 13, 14].map (fun u =>
    List.replicate 3 (Interaction.mk u 1 none none) ++
    List.replicate 3 (Interaction.mk u 2 none none))).flatten

/-- The `ItemBasedCollaborativeFiltering` state trained from `c4Rows`:
two items whose similarity matrix is identically `1`. -/
def c4State : ItemCFState :=
  ItemCFState.mk [1, 2] (fun _ _ => 1) true

/-- Content state with four items, all of category `"action"`. -/
def c5ContentState : ContentState :=
  ContentState.mk [1, 2, 3, 4] (fun _ => "action") (fun _ => 0) [5] true

/-- Similarity oracle of the diversification counterexample. -/
def c5Sims : UserId → List ℚ :=
  fun _ => [1 / 2, 1 / 3, 1 / 4, 1 / 5]

/-- Hybrid engine whose content slot is the trained `c5ContentState`. -/
def c5Engine : WeightedHybridEngine :=
  WeightedHybridEngine.mk (4 / 10) (3 / 10) (3 / 10) true true
    failScorer failScorer
    (SubScorer.mk (fun u => decide (u ∈ c5ContentState.user_profiles))
      (fun ctx => Except.ok (contentRecommend c5Sims c5ContentState ctx)))
    failScorer

/-- Request with `diversify = True` (the dataclass default). -/
def c5Ctx : RecommendationContext :=
  RecommendationContext.mk 5 0 10 [] [] [] 0 true false

/-- The list `hybridRecommend c5Engine c5Ctx` actually returns: four
items of category `"action"`. -/
def c5Out : List RecommendationItem :=
  [RecommendationItem.mk 1 (1 / 2)
      "Hybrid recommendation (methods: content_based)",
   RecommendationItem.mk 2 (1 / 3)
      "Hybrid recommendation (methods: content_based)",
   RecommendationItem.mk 3 (1 / 4)
      "Hybrid recommendation (methods: content_based)",
   RecommendationItem.mk 4 (1 / 5)
      "Hybrid recommendation (methods: content_based)"]

/-- Trained user-CF state of the cold-start witness: one user, one item. -/
def c6wState : UserCFState :=
  UserCFState.mk [100] [1] (fun _ _ => 1) (fun _ _ => 1) 50 true

/-- Trained content state of the cold-start witness: no user profiles. -/
def c6wContentState : ContentState :=
  ContentState.mk [1] (fun _ => "c") (fun _ => 2) [] true

/-- Request by a brand-new user (`999` is unknown everywhere). -/
def c6wCtx : RecommendationContext :=
  RecommendationContext.mk 999 0 5 [] [] [] 0 true false

/-- Redis backend of the failure-policy witness: both raw operations
raise a connection error. -/
def c7wBackend : RedisBackend :=
  RedisBackend.mk (fun _ => Except.error "connection refused")
    (fun _ _ _ => Except.error "connection refused")
    (fun s => Except.ok s) (fun s => s)

/-- Untrained hybrid engine of the bounded-output witness. -/
def c8wEngine : WeightedHybridEngine :=
  WeightedHybridEngine.mk (4 / 10) (3 / 10) (3 / 10) true false
    failScorer failScorer failScorer failScorer

/-- Implicit-MF state of the bounded-output witness. -/
def c8wImplicitState : ImplicitMFState :=
  ImplicitMFState.mk [100] [1, 2] (fun _ _ => 1)
    (fun _ n => (List.range n).map (fun i => (i, (1 : ℚ)))) true

/-- Five duplicate rows whose rating is present but zero and whose
interaction value is `2`: the truthiness test `if row.get('rating'):`
ignores the zero rating, so the cell receives `2`, not the rating. -/
def c9Rows : List Interaction :=
  List.replicate 5 (Interaction.mk 7 3 (some 2) (some 0))

/-- Two rows of the last-write-wins witness: the same `(user, item)` cell
is written twice, first with `3`, then with `5`. -/
def c9wRows : List Interaction :=
  [Interaction.mk 1 2 (some 3) none, Interaction.mk 1 2 (some 5) none]

/-- Untrained engine states for the never-trained claim. -/
def c10wEngine : WeightedHybridEngine :=
  WeightedHybridEngine.mk (4 / 10) (3 / 10) (3 / 10) true false
    failScorer failScorer failScorer failScorer

def c10wUserCFState : UserCFState :=
  UserCFState.mk [] [] (fun _ _ => 0) (fun _ _ => 0) 50 false

def c10wContentState : ContentState :=
  ContentState.mk [] (fun _ => "") (fun _ => 0) [] false

def c10wSVDState : SVDState :=
  SVDState.mk [] [] (fun _ _ => 0) (fun _ => []) (fun _ => 0) false

theorem mem_insertKeyDesc {α : Type} (key : α → ℚ) (x : α) (l : List α)
    (a : α) : a ∈ insertKeyDesc key x l ↔ a = x ∨ a ∈ l := by
  induction l with
  | nil => simp [insertKeyDesc]
  | cons y ys ih =>
    simp only [insertKeyDesc]
    split
    · simp [or_comm, or_assoc, or_left_comm]
    · simp only [List.mem_cons, ih]
      tauto

theorem length_insertKeyDesc {α : Type} (key : α → ℚ) (x : α) (l : List α) :
    (insertKeyDesc key x l).length = l.length + 1 := by
  induction l with
  | nil => rfl
  | cons y ys ih =>
    simp only [insertKeyDesc]
    split
    · simp
    · simp [ih]

theorem pairwise_insertKeyDesc {α : Type} (key : α → ℚ) (x : α) (l : List α)
    (h : l.Pairwise (fun a b => key b ≤ key a)) :
    (insertKeyDesc key x l).Pairwise (fun a b => key b ≤ key a) := by
  induction l with
  | nil => simp [insertKeyDesc]
  | cons y ys ih =>
    rw [List.pairwise_cons] at h
    obtain ⟨hy, hys⟩ := h
    simp only [insertKeyDesc]
    split
    · rename_i hlt
      refine List.pairwise_cons.2 ⟨?_, List.pairwise_cons.2 ⟨hy, hys⟩⟩
      intro b hb
      rcases List.mem_cons.1 hb with rfl | hb
      · exact le_of_lt hlt
      · exact le_trans (hy b hb) (le_of_lt hlt)
    · rename_i hge
      push_neg at hge
      refine List.pairwise_cons.2 ⟨?_, ih hys⟩
      intro b hb
      rcases (mem_insertKeyDesc key x ys b).1 hb with rfl | hb
      · exact hge
      · exact hy b hb

theorem mem_foldl_insertKeyDesc {α : Type} (key : α → ℚ) (l acc : List α)
    (a : α) :
    a ∈ l.foldl (fun acc x => insertKeyDesc key x acc) acc ↔
      a ∈ acc ∨ a ∈ l := by
  induction l generalizing acc with
  | nil => simp
  | cons x xs ih =>
    simp only [List.foldl_cons, ih, mem_insertKeyDesc, List.mem_cons]
    tauto

theorem mem_sortKeyDesc {α : Type} (key : α → ℚ) (l : List α) (a : α) :
    a ∈ sortKeyDesc key l ↔ a ∈ l := by
  simp [sortKeyDesc, mem_foldl_insertKeyDesc]

theorem length_foldl_insertKeyDesc {α : Type} (key : α → ℚ) (l acc : List α) :
    (l.foldl (fun acc x => insertKeyDesc key x acc) acc).length =
      acc.length + l.length := by
  induction l generalizing acc with
  | nil => rfl
  | cons x xs ih =>
    simp only [List.foldl_cons, ih, length_insertKeyDesc, List.length_cons]
    omega

theorem length_sortKeyDesc {α : Type} (key : α → ℚ) (l : List α) :
    (sortKeyDesc key l).length = l.length := by
  simp [sortKeyDesc, length_foldl_insertKeyDesc]

theorem pairwise_sortKeyDesc {α : Type} (key : α → ℚ) (l : List α) :
    (sortKeyDesc key l).Pairwise (fun a b => key b ≤ key a) := by
  suffices h : ∀ acc : List α, acc.Pairwise (fun a b => key b ≤ key a) →
      (l.foldl (fun acc x => insertKeyDesc key x acc) acc).Pairwise
        (fun a b => key b ≤ key a) by
    exact h [] (List.Pairwise.nil)
  induction l with
  | nil => intro acc hacc; simpa using hacc
  | cons x xs ih =>
    intro acc hacc
    exact ih (insertKeyDesc key x acc) (pairwise_insertKeyDesc key x acc hacc)

theorem mem_insertKeyAsc {α : Type} (key : α → ℚ) (x : α) (l : List α)
    (a : α) : a ∈ insertKeyAsc key x l ↔ a = x ∨ a ∈ l := by
  induction l with
  | nil => simp [insertKeyAsc]
  | cons y ys ih =>
    simp only [insertKeyAsc]
    split
    · simp [or_comm, or_assoc, or_left_comm]
    · simp only [List.mem_cons, ih]
      tauto

theorem length_insertKeyAsc {α : Type} (key : α → ℚ) (x : α) (l : List α) :
    (insertKeyAsc key x l).length = l.length + 1 := by
  induction l with
  | nil => rfl
  | cons y ys ih =>
    simp only [insertKeyAsc]
    split
    · simp
    · simp [ih]

theorem pairwise_insertKeyAsc {α : Type} (key : α → ℚ) (x : α) (l : List α)
    (h : l.Pairwise (fun a b => key a ≤ key b)) :
    (insertKeyAsc key x l).Pairwise (fun a b => key a ≤ key b) := by
  induction l with
  | nil => simp [insertKeyAsc]
  | cons y ys ih =>
    rw [List.pairwise_cons] at h
    obtain ⟨hy, hys⟩ := h
    simp only [insertKeyAsc]
    split
    · rename_i hlt
      refine List.pairwise_cons.2 ⟨?_, List.pairwise_cons.2 ⟨hy, hys⟩⟩
      intro b hb
      rcases List.mem_cons.1 hb with rfl | hb
      · exact le_of_lt hlt
      · exact le_trans (le_of_lt hlt) (hy b hb)
    · rename_i hge
      push_neg at hge
      refine List.pairwise_cons.2 ⟨?_, ih hys⟩
      intro b hb
      rcases (mem_insertKeyAsc key x ys b).1 hb with rfl | hb
      · exact hge
      · exact hy b hb

theorem length_foldl_insertKeyAsc {α : Type} (key : α → ℚ) (l acc : List α) :
    (l.foldl (fun acc x => insertKeyAsc key x acc) acc).length =
      acc.length + l.length := by
  induction l generalizing acc with
  | nil => rfl
  | cons x xs ih =>
    simp only [List.foldl_cons, ih, length_insertKeyAsc, List.length_cons]
    omega

theorem length_sortKeyAsc {α : Type} (key : α → ℚ) (l : List α) :
    (sortKeyAsc key l).length = l.length := by
  simp [sortKeyAsc, length_foldl_insertKeyAsc]

theorem pairwise_sortKeyAsc {α : Type} (key : α → ℚ) (l : List α) :
    (sortKeyAsc key l).Pairwise (fun a b => key a ≤ key b) := by
  suffices h : ∀ acc : List α, acc.Pairwise (fun a b => key a ≤ key b) →
      (l.foldl (fun acc x => insertKeyAsc key x acc) acc).Pairwise
        (fun a b => key a ≤ key b) by
    exact h [] (List.Pairwise.nil)
  induction l with
  | nil => intro acc hacc; simpa using hacc
  | cons x xs ih =>
    intro acc hacc
    exact ih (insertKeyAsc key x acc) (pairwise_insertKeyAsc key x acc hacc)

theorem length_argDesc (vals : List ℚ) : (argDesc vals).length = vals.length := by
  simp [argDesc, length_sortKeyAsc]

theorem pairwise_argDesc (vals : List ℚ) :
    (argDesc vals).Pairwise (fun a b => b.2 ≤ a.2) := by
  rw [argDesc, List.pairwise_reverse]
  exact pairwise_sortKeyAsc Prod.snd vals.enum

/-- Claim C10: an engine on which training never completed
(`is_trained` still `False`) returns the empty list from `recommend` for
every context — for the weighted hybrid, user-based collaborative,
content-based and SVD engines alike — rather than raising or producing
partial results. -/
theorem claim_c10_untrained_recommend_empty :
    (∀ (e : WeightedHybridEngine) (ctx : RecommendationContext),
      e.is_trained = false → hybridRecommend e ctx = Except.ok []) ∧
    (∀ (st : UserCFState) (ctx : RecommendationContext),
      st.is_trained = false → userCFRecommend st ctx = []) ∧
    (∀ (simsFor : UserId → List ℚ) (cs : ContentState)
        (ctx : RecommendationContext),
      cs.is_trained = false → contentRecommend simsFor cs ctx = []) ∧
    (∀ (st : SVDState) (ctx : RecommendationContext),
      st.is_trained = false → svdRecommend st ctx = []) := by
  refine ⟨?_, ?_, ?_, ?_⟩
  · intro e ctx h
    simp [hybridRecommend, h]
  · intro st ctx h
    simp [userCFRecommend, h]
  · intro simsFor cs ctx h
    simp [contentRecommend, h]
  · intro st ctx h
    simp [svdRecommend, h]

/-- Witness for C10 at concrete untrained engine states. -/
theorem claim_c10_untrained_recommend_empty_witness :
    hybridRecommend c10wEngine plainCtx = Except.ok [] ∧
    userCFRecommend c10wUserCFState plainCtx = [] ∧
    contentRecommend (fun _ => []) c10wContentState plainCtx = [] ∧
    svdRecommend c10wSVDState plainCtx = [] :=
  ⟨claim_c10_untrained_recommend_empty.1 c10wEngine plainCtx rfl,
   claim_c10_untrained_recommend_empty.2.1 c10wUserCFState plainCtx rfl,
   claim_c10_untrained_recommend_empty.2.2.1 (fun _ => []) c10wContentState
     plainCtx rfl,
   claim_c10_untrained_recommend_empty.2.2.2 c10wSVDState plainCtx rfl⟩

/-- Claim C7: when the cache client is not connected, or the underlying
cache operation raises, `get` returns `None` (a cache miss) and `set`
returns `False`; neither operation propagates the error to its caller
(visible in the embedding from the non-`Except` result types of
`redisGet` and `redisSet`). -/
theorem claim_c7_cache_failures_swallowed (connected : Bool)
    (b : RedisBackend) (key value : String) (expire : Option Nat) :
    (connected = false →
      redisGet connected b key = none ∧
      redisSet connected b key value expire = false) ∧
    (raised (b.rawGet key) = true → redisGet connected b key = none) ∧
    (raised (b.rawSet key (b.jsonDumps value) expire) = true →
      redisSet connected b key value expire = false) := by
  refine ⟨fun h => ⟨by simp [redisGet, h], by simp [redisSet, h]⟩, ?_, ?_⟩
  · intro h
    cases hg : b.rawGet key with
    | error s => cases connected <;> simp [redisGet, hg]
    | ok v => rw [hg] at h; simp [raised] at h
  · intro h
    cases hs : b.rawSet key (b.jsonDumps value) expire with
    | error s => cases connected <;> simp [redisSet, hs]
    | ok v => rw [hs] at h; simp [raised] at h

/-- Witness for C7: a backend whose raw operations raise a connection
error still yields a miss and a `False` set result. -/
theorem claim_c7_cache_failures_swallowed_witness :
    redisGet true c7wBackend "recs:user:42" = none ∧
    redisSet true c7wBackend "recs:user:42" "payload" none = false :=
  ⟨(claim_c7_cache_failures_swallowed true c7wBackend "recs:user:42"
      "payload" none).2.1 rfl,
   (claim_c7_cache_failures_swallowed true c7wBackend "recs:user:42"
      "payload" none).2.2 rfl⟩

/-- Claim C2: the hybrid combiner's `recommend` wraps every sub-scorer
call in `try/except`, so it always returns a result (`Except.ok`), and
when every sub-scorer raises it returns the empty list instead of an
error. -/
theorem claim_c2_combiner_swallows_failures (e : WeightedHybridEngine)
    (ctx : RecommendationContext) :
    (∃ l, hybridRecommend e ctx = Except.ok l) ∧
    (raised (e.user_cf.recommendFn ctx) = true →
     raised (e.item_cf.recommendFn ctx) = true →
     raised (e.content_based.recommendFn ctx) = true →
     raised (e.matrix_factorization.recommendFn ctx) = true →
     hybridRecommend e ctx = Except.ok []) := by
  constructor
  · unfold hybridRecommend
    split
    · exact ⟨[], rfl⟩
    · exact ⟨_, rfl⟩
  · intro h1 h2 h3 h4
    cases hc : e.user_cf.recommendFn ctx with
    | ok l => rw [hc] at h1; simp [raised] at h1
    | error s1 =>
      cases hi : e.item_cf.recommendFn ctx with
      | ok l => rw [hi] at h2; simp [raised] at h2
      | error s2 =>
        cases hco : e.content_based.recommendFn ctx with
        | ok l => rw [hco] at h3; simp [raised] at h3
        | error s3 =>
          cases hm : e.matrix_factorization.recommendFn ctx with
          | ok l => rw [hm] at h4; simp [raised] at h4
          | error s4 =>
            simp [hybridRecommend, hc, hi, hco, hm, sortKeyDesc]

/-- Witness for C2: with all four component engines raising, the hybrid
engine still answers, with the empty list. -/
theorem claim_c2_combiner_swallows_failures_witness :
    hybridRecommend c2wEngine plainCtx = Except.ok [] :=
  (claim_c2_combiner_swallows_failures c2wEngine plainCtx).2 rfl rfl rfl rfl

/-- Claim C8: `recommend` output is truncated to
`context.num_recommendations` on every path (shown for the hybrid
combiner on all its paths, and for the implicit-MF engine including its
cold start), and the hybrid result is sorted descending by combined
score. -/
theorem claim_c8_bounded_sorted_output :
    (∀ (e : WeightedHybridEngine) (ctx : RecommendationContext)
        (l : List RecommendationItem),
      hybridRecommend e ctx = Except.ok l →
      l.length ≤ ctx.num_recommendations ∧ ScoreSortedDesc l) ∧
    (∀ (st : ImplicitMFState) (ctx : RecommendationContext),
      (implicitRecommend st ctx).length ≤ ctx.num_recommendations) := by
  constructor
  · intro e ctx l h
    unfold hybridRecommend at h
    split at h
    · obtain rfl : ([] : List RecommendationItem) = l := by
        simpa using h
      exact ⟨Nat.zero_le _, List.Pairwise.nil⟩
    · obtain rfl :
          (sortKeyDesc (fun x => x.score) _).take ctx.num_recommendations = l := by
        simpa using h
      refine ⟨List.length_take_le _ _, ?_⟩
      exact List.Pairwise.sublist (List.take_sublist _ _)
        (pairwise_sortKeyDesc _ _)
  · intro st ctx
    unfold implicitRecommend
    split
    · simp
    · split
      · unfold implicitColdStart
        exact le_trans (List.length_filterMap_le _ _)
          (List.length_take_le _ _)
      · exact List.length_take_le _ _

/-- Witness for C8 at a concrete engine and the implicit-MF state. -/
theorem claim_c8_bounded_sorted_output_witness :
    (([] : List RecommendationItem).length ≤ plainCtx.num_recommendations ∧
      ScoreSortedDesc ([] : List RecommendationItem)) ∧
    (implicitRecommend c8wImplicitState plainCtx).length ≤
      plainCtx.num_recommendations :=
  ⟨claim_c8_bounded_sorted_output.1 c8wEngine plainCtx [] rfl,
   claim_c8_bounded_sorted_output.2 c8wImplicitState plainCtx⟩

theorem div_add_div_add_div_self (a b c : ℚ) (h : 0 < a + b + c) :
    a / (a + b + c) + b / (a + b + c) + c / (a + b + c) = 1 := by
  rw [div_add_div_same, div_add_div_same]
  exact div_self (ne_of_gt h)

/-- Claim C3: for every user, the resolved adaptive weights of the hybrid
combiner sum to `1` within `1e-6` — whether the user has data in all,
some, or none of the three sub-scorers (the base weights are positive, as
are the constructor defaults `0.4/0.3/0.3`).  With data in none, the
weights are the equal-split `0.33/0.33/0.34`; otherwise the weight of
each sub-scorer lacking user data is zeroed and the rest renormalized. -/
theorem claim_c3_weight_normalization (e : WeightedHybridEngine)
    (u : UserId) (hAd : e.adaptive_weights = true)
    (h1 : 0 < e.collaborative_weight) (h2 : 0 < e.content_weight)
    (h3 : 0 < e.matrix_factorization_weight) :
    |(calculateAdaptiveWeights e u).collaborative +
      (calculateAdaptiveWeights e u).content +
      (calculateAdaptiveWeights e u).matrix_factorization - 1|
      ≤ 1 / 1000000 ∧
    (e.user_cf.hasUser u = false → e.content_based.hasUser u = false →
      e.matrix_factorization.hasUser u = false →
      calculateAdaptiveWeights e u =
        HybridWeights.mk (33 / 100) (33 / 100) (34 / 100)) ∧
    (e.user_cf.hasUser u = false →
      (e.content_based.hasUser u = true ∨
        e.matrix_factorization.hasUser u = true) →
      (calculateAdaptiveWeights e u).collaborative = 0) ∧
    (e.content_based.hasUser u = false →
      (e.user_cf.hasUser u = true ∨
        e.matrix_factorization.hasUser u = true) →
      (calculateAdaptiveWeights e u).content = 0) ∧
    (e.matrix_factorization.hasUser u = false →
      (e.user_cf.hasUser u = true ∨ e.content_based.hasUser u = true) →
      (calculateAdaptiveWeights e u).matrix_factorization = 0) := by
  refine ⟨?_, ?_, ?_, ?_, ?_⟩
  · unfold calculateAdaptiveWeights
    rw [hAd]
    cases hcf : e.user_cf.hasUser u <;>
      cases hco : e.content_based.hasUser u <;>
        cases hmf : e.matrix_factorization.hasUser u <;> norm_num
    · rw [if_pos h3, div_self (ne_of_gt h3)]
      norm_num
    · rw [if_pos h2, div_self (ne_of_gt h2)]
      norm_num
    · rw [if_pos (by linarith :
        (0 : ℚ) < e.content_weight + e.matrix_factorization_weight)]
      norm_num
      rw [div_add_div_same, div_self (by linarith)]
      norm_num
    · rw [if_pos h1, div_self (ne_of_gt h1)]
      norm_num
    · rw [if_pos (by linarith :
        (0 : ℚ) < e.collaborative_weight + e.matrix_factorization_weight)]
      norm_num
      rw [div_add_div_same, div_self (by linarith)]
      norm_num
    · rw [if_pos (by linarith :
        (0 : ℚ) < e.collaborative_weight + e.content_weight)]
      norm_num
      rw [div_add_div_same, div_self (by linarith)]
      norm_num
    · rw [if_pos (by linarith : (0 : ℚ) <
        e.collaborative_weight + e.content_weight +
          e.matrix_factorization_weight)]
      norm_num
      rw [div_add_div_same, div_add_div_same, div_self (by linarith)]
      norm_num
  · intro hcf hco hmf
    simp [calculateAdaptiveWeights, hAd, hcf, hco, hmf]
  · intro hcf hor
    unfold calculateAdaptiveWeights
    rw [hAd, hcf]
    cases hco : e.content_based.hasUser u <;>
      cases hmf : e.matrix_factorization.hasUser u
    · rw [hco, hmf] at hor; simp at hor
    · norm_num
      split <;> norm_num
    · norm_num
      split <;> norm_num
    · norm_num
      split <;> norm_num
  · intro hco hor
    unfold calculateAdaptiveWeights
    rw [hAd, hco]
    cases hcf : e.user_cf.hasUser u <;>
      cases hmf : e.matrix_factorization.hasUser u
    · rw [hcf, hmf] at hor; simp at hor
    · norm_num
      split <;> norm_num
    · norm_num
      split <;> norm_num
    · norm_num
      split <;> norm_num
  · intro hmf hor
    unfold calculateAdaptiveWeights
    rw [hAd, hmf]
    cases hcf : e.user_cf.hasUser u <;>
      cases hco : e.content_based.hasUser u
    · rw [hcf, hco] at hor; simp at hor
    · norm_num
      split <;> norm_num
    · norm_num
      split <;> norm_num
    · norm_num
      split <;> norm_num

unseal Rat.mul Rat.inv Rat.add Rat.sub in
/-- Witness for C3 at a concrete engine whose user is known only to the
collaborative sub-scorer. -/
theorem claim_c3_weight_normalization_witness :
    |(calculateAdaptiveWeights c3wEngine 42).collaborative +
      (calculateAdaptiveWeights c3wEngine 42).content +
      (calculateAdaptiveWeights c3wEngine 42).matrix_factorization - 1|
      ≤ 1 / 1000000 :=
  (claim_c3_weight_normalization c3wEngine 42 rfl (by decide) (by decide)
    (by decide)).1

theorem userCFColdStart_spec (st : UserCFState) (ctx : RecommendationContext) :
    (userCFColdStart st ctx).length =
      min ctx.num_recommendations st.item_mapping.length ∧
    ScoreSortedDesc (userCFColdStart st ctx) := by
  constructor
  · simp [userCFColdStart, List.length_take, length_argDesc, itemPopularity]
  · unfold userCFColdStart ScoreSortedDesc
    refine List.Pairwise.map _ ?_
      (List.Pairwise.sublist (List.take_sublist _ _) (pairwise_argDesc _))
    intro a b hab
    dsimp only
    rcases Nat.eq_zero_or_pos st.user_mapping.length with h0 | hpos
    · simp [h0]
    · exact (div_le_div_iff_of_pos_right (by exact_mod_cast hpos)).2 hab

theorem contentColdStart_spec (cs : ContentState) (ctx : RecommendationContext) :
    (contentColdStart cs ctx).length =
      min ctx.num_recommendations cs.item_mapping.length ∧
    ScoreSortedDesc (contentColdStart cs ctx) := by
  constructor
  · simp [contentColdStart, List.length_take, length_sortKeyDesc]
  · unfold contentColdStart ScoreSortedDesc
    refine List.Pairwise.map _ ?_
      (List.Pairwise.sublist (List.take_sublist _ _)
        (pairwise_sortKeyDesc Prod.snd _))
    intro a b hab
    exact hab

/-- Claim C6: for a brand-new user (absent from the trained index and
from the content profiles), `recommend` takes the popularity cold-start
path: it returns at most `num_recommendations` items, ranked descending
by popularity score, without raising, and the result is non-empty
whenever the trained item catalog is non-empty (shown for the user-based
collaborative engine and the content-based engine, the two cited
cold-start implementations fanned out to by the hybrid combiner). -/
theorem claim_c6_cold_start_popular (st : UserCFState) (cs : ContentState)
    (simsFor : UserId → List ℚ) (ctx : RecommendationContext)
    (hTr : st.is_trained = true)
    (hUnk : posOf? st.user_mapping ctx.user_id = none)
    (hcTr : cs.is_trained = true)
    (hcUnk : ctx.user_id ∉ cs.user_profiles) :
    userCFRecommend st ctx = userCFColdStart st ctx ∧
    (userCFRecommend st ctx).length ≤ ctx.num_recommendations ∧
    ScoreSortedDesc (userCFRecommend st ctx) ∧
    (0 < ctx.num_recommendations → 0 < st.item_mapping.length →
      userCFRecommend st ctx ≠ []) ∧
    contentRecommend simsFor cs ctx = contentColdStart cs ctx ∧
    (contentRecommend simsFor cs ctx).length ≤ ctx.num_recommendations ∧
    ScoreSortedDesc (contentRecommend simsFor cs ctx) ∧
    (0 < ctx.num_recommendations → 0 < cs.item_mapping.length →
      contentRecommend simsFor cs ctx ≠ []) := by
  have h1 : userCFRecommend st ctx = userCFColdStart st ctx := by
    simp [userCFRecommend, hTr, hUnk]
  have h2 : contentRecommend simsFor cs ctx = contentColdStart cs ctx := by
    simp [contentRecommend, hcTr, hcUnk]
  rw [h1, h2]
  obtain ⟨hl1, hs1⟩ := userCFColdStart_spec st ctx
  obtain ⟨hl2, hs2⟩ := contentColdStart_spec cs ctx
  refine ⟨rfl, ?_, hs1, ?_, rfl, ?_, hs2, ?_⟩
  · rw [hl1]; exact min_le_left _ _
  · intro hn hi
    rw [← List.length_pos, hl1]
    exact lt_min hn hi
  · rw [hl2]; exact min_le_left _ _
  · intro hn hi
    rw [← List.length_pos, hl2]
    exact lt_min hn hi

/-- Witness for C6: user `999` is unknown to the concrete trained
states, and both cold-start paths return a non-empty list. -/
theorem claim_c6_cold_start_popular_witness :
    userCFRecommend c6wState c6wCtx ≠ [] ∧
    contentRecommend (fun _ => []) c6wContentState c6wCtx ≠ [] := by
  have h := claim_c6_cold_start_popular c6wState c6wContentState
    (fun _ => []) c6wCtx rfl rfl rfl (by decide)
  exact ⟨h.2.2.2.1 (by decide) (by decide), h.2.2.2.2.2.2.2 (by decide) (by decide)⟩

/-- Claim C1 (amended theorem): the `exclude_items` filter is applied
inside the content-based sub-scorer's warm path — no item of
`context.exclude_items` survives `contentRecommendCore`, for any
similarity row.  (The collaborative sub-scorers and the hybrid combiner
apply no such filter; see the counterexample.) -/
theorem claim_c1_content_warm_path_excludes (st : ContentState)
    (sims : List ℚ) (ctx : RecommendationContext) (x : RecommendationItem)
    (hx : x ∈ contentRecommendCore st sims ctx) :
    x.item_id ∉ ctx.exclude_items := by
  unfold contentRecommendCore at hx
  have hx2 := List.mem_of_mem_take hx
  rw [mem_sortKeyDesc, List.mem_filterMap] at hx2
  obtain ⟨p, hp, hfp⟩ := hx2
  simp only at hfp
  by_cases h1 : ctx.exclude_items ≠ [] ∧
      st.item_mapping.getD p.1 0 ∈ ctx.exclude_items
  · rw [if_pos h1] at hfp
    exact absurd hfp (by simp)
  · rw [if_neg h1] at hfp
    by_cases h2 : ctx.include_categories ≠ [] ∧
        st.categoryOf (st.item_mapping.getD p.1 0) ∉ ctx.include_categories
    · rw [if_pos h2] at hfp
      exact absurd hfp (by simp)
    · rw [if_neg h2] at hfp
      by_cases h3 : ctx.exclude_categories ≠ [] ∧
          st.categoryOf (st.item_mapping.getD p.1 0) ∈ ctx.exclude_categories
      · rw [if_pos h3] at hfp
        exact absurd hfp (by simp)
      · rw [if_neg h3] at hfp
        have hx3 : RecommendationItem.mk (st.item_mapping.getD p.1 0) p.2
            "Similar to items you have interacted with (content similarity)"
            = x := Option.some.inj hfp
        intro hmem
        apply h1
        rw [← hx3] at hmem
        refine ⟨?_, hmem⟩
        intro hnil
        rw [hnil] at hmem
        exact absurd hmem (List.not_mem_nil _)

unseal Rat.mul Rat.inv Rat.add Rat.sub in
/-- Witness for the amended C1 at a concrete content state: item `7` is
recommended while item `9` is excluded, and `7 ∉ [9]`. -/
theorem claim_c1_content_warm_path_excludes_witness :
    (RecommendationItem.mk 7 (1 / 2)
      "Similar to items you have interacted with (content similarity)").item_id
      ∉ c1wCtx.exclude_items :=
  claim_c1_content_warm_path_excludes c1wContentState [1 / 2] c1wCtx _
    (by decide)

unseal Rat.mul Rat.inv Rat.add Rat.sub in
/-- Claim C1 (counterexample): on the trained engine `c1Engine`, user
`100` asks for recommendations with `exclude_items = [3]`, yet the hybrid
`recommend` returns item `3` — the user-based collaborative sub-scorer
never consults `exclude_items` and the combiner applies no defensive
filter (`hybrid.py` lines 62–136 contain no exclusion logic). -/
theorem claim_c1_exclusion_counterexample :
    c1Ctx.exclude_items ≠ [] ∧
    (3 : ItemId) ∈ c1Ctx.exclude_items ∧
    hybridRecommend c1Engine c1Ctx =
      Except.ok [RecommendationItem.mk 3 (48 / 25)
        "Hybrid recommendation (methods: collaborative_filtering)"] ∧
    (3 : ItemId) ∈ (match hybridRecommend c1Engine c1Ctx with
      | Except.ok l => l.map (fun x : RecommendationItem => x.item_id)
      | Except.error _ => []) := by
  decide

theorem diversifyGo_sublist (m : Nat) (cats : List (ItemId × String)) :
    ∀ (l : List RecommendationItem) (counts : List (String × Nat)),
      List.Sublist (diversifyGo m cats counts l) l := by
  intro l
  induction l with
  | nil => intro counts; simp [diversifyGo]
  | cons item rest ih =>
    intro counts
    simp only [diversifyGo]
    split
    · exact List.Sublist.cons₂ _ (ih _)
    · exact List.Sublist.cons _ (ih _)

theorem lookup_bumpCount_self (counts : List (String × Nat)) (c : String)
    (n : Nat) : (bumpCount counts c n).lookup c = some n := by
  induction counts with
  | nil => simp [bumpCount, List.lookup]
  | cons p rest ih =>
    obtain ⟨d, q⟩ := p
    by_cases h : d = c
    · subst h
      simp [bumpCount, List.lookup]
    · have hbeq : (c == d) = false := beq_eq_false_iff_ne.2 (Ne.symm h)
      rw [bumpCount, if_neg h]
      simp [List.lookup, hbeq, ih]

theorem lookup_bumpCount_other (counts : List (String × Nat)) (c c2 : String)
    (n : Nat) (h : c2 ≠ c) :
    (bumpCount counts c n).lookup c2 = counts.lookup c2 := by
  have hbeq : (c2 == c) = false := beq_eq_false_iff_ne.2 h
  induction counts with
  | nil => simp [bumpCount, List.lookup, hbeq]
  | cons p rest ih =>
    obtain ⟨d, q⟩ := p
    by_cases hd : d = c
    · subst hd
      simp [bumpCount, List.lookup, hbeq]
    · rw [bumpCount, if_neg hd]
      by_cases h2 : c2 = d
      · subst h2
        simp [List.lookup]
      · have hbeq2 : (c2 == d) = false := beq_eq_false_iff_ne.2 h2
        simp [List.lookup, hbeq2, ih]

theorem countCategory_cons (catOf : ItemId → String) (x : RecommendationItem)
    (l : List RecommendationItem) (c : String) :
    countCategory catOf (x :: l) c =
      (if catOf x.item_id = c then 1 else 0) + countCategory catOf l c := by
  by_cases h : catOf x.item_id = c
  · simp [countCategory, List.filter_cons, h]
    omega
  · simp [countCategory, List.filter_cons, h]

theorem countCategory_diversifyGo (m : Nat) (cats : List (ItemId × String)) :
    ∀ (l : List RecommendationItem) (counts : List (String × Nat)) (c : String),
      countCategory (fun i => (cats.lookup i).getD "unknown")
        (diversifyGo m cats counts l) c ≤
        m - ((counts.lookup c).getD 0) := by
  intro l
  induction l with
  | nil => intro counts c; simp [diversifyGo, countCategory]
  | cons item rest ih =>
    intro counts c
    simp only [diversifyGo]
    split
    · rename_i hlt
      by_cases hc : (cats.lookup item.item_id).getD "unknown" = c
      · rw [countCategory_cons, if_pos hc, hc]
        have hrec := ih (bumpCount counts c
          (((counts.lookup c).getD 0) + 1)) c
        rw [lookup_bumpCount_self] at hrec
        simp only [Option.getD_some] at hrec
        rw [hc] at hlt
        omega
      · rw [countCategory_cons, if_neg hc]
        have hrec := ih (bumpCount counts
          ((cats.lookup item.item_id).getD "unknown")
          (((counts.lookup ((cats.lookup item.item_id).getD "unknown")).getD 0)
            + 1)) c
        rw [lookup_bumpCount_other _ _ _ _ (Ne.symm hc)] at hrec
        omega
    · exact ih counts c

/-- Claim C5 (amended theorem): the diversification helper
`_diversify_recommendations` does cap each category at
`max_per_category` (when the category dict is non-empty) and only drops
items, so the survivors keep their relative order — but the hybrid
`recommend` never invokes it (see the counterexample). -/
theorem claim_c5_diversify_caps_categories (recs : List RecommendationItem)
    (categories : List (ItemId × String)) (max_per_category : Nat)
    (c : String) (h : categories ≠ []) :
    countCategory (fun i => (categories.lookup i).getD "unknown")
      (diversifyRecommendations recs categories max_per_category) c ≤
      max_per_category ∧
    List.Sublist (diversifyRecommendations recs categories max_per_category)
      recs := by
  unfold diversifyRecommendations
  rw [if_neg h]
  constructor
  · have hcount := countCategory_diversifyGo max_per_category categories recs
      [] c
    simpa [List.lookup] using hcount
  · exact diversifyGo_sublist _ _ recs []

/-- Witness for the amended C5 at a one-item list. -/
theorem claim_c5_diversify_caps_categories_witness :
    countCategory (fun i => ([(1, "a")].lookup i).getD "unknown")
      (diversifyRecommendations [RecommendationItem.mk 1 1 "r"] [(1, "a")] 3)
      "a" ≤ 3 ∧
    List.Sublist
      (diversifyRecommendations [RecommendationItem.mk 1 1 "r"] [(1, "a")] 3)
      [RecommendationItem.mk 1 1 "r"] :=
  claim_c5_diversify_caps_categories [RecommendationItem.mk 1 1 "r"]
    [(1, "a")] 3 "a" (by decide)

unseal Rat.mul Rat.inv Rat.add Rat.sub in
/-- Claim C5 (counterexample): with `diversify = True`, the hybrid
engine `c5Engine` returns four items that all carry category `"action"`
in the trained content state — more than the default cap of 3 —
because `WeightedHybridRecommendationEngine.recommend` never calls
`_diversify_recommendations`. -/
theorem claim_c5_diversify_counterexample :
    c5Ctx.diversify = true ∧
    hybridRecommend c5Engine c5Ctx = Except.ok c5Out ∧
    countCategory c5ContentState.categoryOf c5Out "action" = 4 ∧
    ¬(countCategory c5ContentState.categoryOf c5Out "action" ≤ 3) := by
  decide

theorem foldl_writes_last (userMap itemMap : List Nat) (ui ii : Nat)
    (rows : List Interaction) :
    ∀ (M0 : Nat → Nat → ℚ),
      (rows.foldl (fun M r =>
        match posOf? userMap r.user_id, posOf? itemMap r.item_id with
        | some a, some b => updateCell M a b (cellValue r)
        | _, _ => M) M0) ui ii =
      match rows.reverse.find? (fun r =>
          decide (posOf? userMap r.user_id = some ui ∧
            posOf? itemMap r.item_id = some ii)) with
      | some r => cellValue r
      | none => M0 ui ii := by
  induction rows using List.reverseRecOn with
  | nil => intro M0; simp
  | append_singleton l r ih =>
    intro M0
    rw [List.foldl_append, List.foldl_cons, List.foldl_nil,
      List.reverse_append]
    simp only [List.reverse_cons, List.reverse_nil, List.nil_append,
      List.singleton_append, List.find?]
    by_cases hp : posOf? userMap r.user_id = some ui ∧
        posOf? itemMap r.item_id = some ii
    · rw [hp.1, hp.2]
      simp [updateCell]
    · have hdec : (decide (posOf? userMap r.user_id = some ui ∧
          posOf? itemMap r.item_id = some ii)) = false := by
        simp only [decide_eq_false_iff_not]
        exact hp
      rw [hdec]
      refine Eq.trans ?_ (ih M0)
      cases hu : posOf? userMap r.user_id with
      | none => rfl
      | some a =>
        cases hi : posOf? itemMap r.item_id with
        | none => rfl
        | some b =>
          have hne : ¬(ui = a ∧ ii = b) := by
            intro hab
            exact hp ⟨by rw [hu, hab.1], by rw [hi, hab.2]⟩
          dsimp only
          unfold updateCell
          rw [if_neg hne]

/-- Claim C9 (amended theorem): in the trained user×item matrix, every
cell holds the value of the *last* interaction row (in input order, after
the min-interaction filter) mapping to that cell — last-write-wins, not
summation — where a row's value is its rating if the rating is truthy
(present and nonzero) and otherwise its interaction value (default
`1.0`), exactly `cellValue`. -/
theorem claim_c9_matrix_last_write_wins (min_interactions : Nat)
    (rows : List Interaction) (users : List UserId) (items : List ItemId)
    (M : Nat → Nat → ℚ)
    (h : trainCore min_interactions rows = Except.ok (users, items, M))
    (ui ii : Nat) :
    M ui ii =
      match (validRows min_interactions rows).reverse.find? (fun r =>
          decide (posOf? users r.user_id = some ui ∧
            posOf? items r.item_id = some ii)) with
      | some r => cellValue r
      | none => 0 := by
  unfold trainCore at h
  by_cases hdf : validRows min_interactions rows = []
  · rw [if_pos hdf] at h
    cases h
  · rw [if_neg hdf] at h
    rw [Except.ok.injEq, Prod.mk.injEq, Prod.mk.injEq] at h
    obtain ⟨hu, hi, hM⟩ := h
    subst hu hi
    rw [← hM]
    unfold buildMatrix
    exact foldl_writes_last _ _ ui ii _ (fun _ _ => 0)

unseal Rat.mul Rat.inv Rat.add Rat.sub in
/-- Witness for the amended C9: the cell written twice (first `3`, then
`5`) holds the value of the later row. -/
theorem claim_c9_matrix_last_write_wins_witness :
    buildMatrix [1] [2] (validRows 1 c9wRows) 0 0 =
      match (validRows 1 c9wRows).reverse.find? (fun r =>
          decide (posOf? [1] r.user_id = some 0 ∧
            posOf? [2] r.item_id = some 0)) with
      | some r => cellValue r
      | none => 0 :=
  claim_c9_matrix_last_write_wins 1 c9wRows [1] [2]
    (buildMatrix [1] [2] (validRows 1 c9wRows)) rfl 0 0

unseal Rat.mul Rat.inv Rat.add Rat.sub in
/-- Claim C9 (counterexample): five identical rows with
`interaction_value = 2.0` and a *present* rating of `0.0` survive the
default `min_interactions = 5` filter, and the trained cell holds `2`
(the interaction value), not the present rating `0` — because
`if row.get('rating'):` is a truthiness test, a present zero rating is
ignored. -/
theorem claim_c9_present_zero_rating_counterexample :
    (match trainCore 5 c9Rows with
      | Except.ok t => some (t.1, t.2.1, t.2.2 0 0)
      | Except.error _ => none) = some ([7], [3], (2 : ℚ)) ∧
    (∀ r ∈ c9Rows, r.rating = some 0) ∧
    (2 : ℚ) ≠ 0 := by
  decide

unseal Rat.mul Rat.inv Rat.add Rat.sub in
/-- Claim C4 (code bug): `ItemBasedCollaborativeFiltering.get_item_similarity`
drops only the *first* entry of the descending similarity order
(`np.argsort(...)[::-1][1:top_k+1]`), assuming the queried item sits
there.  On the trained state reached from `c4Rows` (the matrix whose two
item columns are identical all-ones vectors, so the exact cosine
similarity of every item pair is `1`, as witnessed by `IsCosSim`),
querying item `1` with `top_k = 1` returns item `1` itself — violating
both the spec and the method's own comment "excluding self".  The
parallel implementations in `UserBasedCollaborativeFiltering` and
`ContentBasedRecommendationEngine` skip the queried index explicitly and
do not have this bug. -/
theorem claim_c4_item_similarity_returns_self :
    (match trainCore 5 c4Rows with
      | Except.ok t => some (t.1, t.2.1, colsOf t.2.2 5 2)
      | Except.error _ => none) =
      some ([10, 11, 12, 13, 14], [1, 2],
        [[1, 1, 1, 1, 1], [1, 1, 1, 1, 1]]) ∧
    IsCosSim [1, 1, 1, 1, 1] [1, 1, 1, 1, 1] 1 ∧
    itemCFGetItemSimilarity c4State 1 1 = [(1, 1)] ∧
    (1 : ItemId) ∈ (itemCFGetItemSimilarity c4State 1 1).map Prod.fst := by
  decide

end RecSys
